import Mathlib

/-!
Verification of the Ayiah media-server core against its specification.

Each Rust component relevant to the claims is shallowly embedded as
executable Lean definitions, and the claims are settled as theorems about
those definitions.  Time is modelled as `Nat` ticks, machine integers as
`Int`/`Nat`, fallible operations as `Option`/`Except`, and the environment
(filesystem, network, database engine) as explicit data passed to the
functions.
-/

namespace Ayiah

/-!
## Rate limiter (src/src/scraper/rate_limiter.rs)

`RequestRecord` keeps a per-provider list of acquisition timestamps
(oldest first, as produced by `Vec::push`).  Timestamps are `Nat` ticks in
the same unit as the window length.
-/

structure RateLimitConfig where
  max_concurrent : Nat
  max_requests : Nat
  window_seconds : Nat
deriving DecidableEq

/-- Embeds `RequestRecord::cleanup`: retain timestamps `t` with
`now.duration_since(t) < window`. -/
def cleanup (now window : Nat) (timestamps : List Nat) : List Nat :=
  timestamps.filter (fun t => now - t < window)

/-- Embeds `RequestRecord::can_request`. -/
def can_request (timestamps : List Nat) (maxRequests : Nat) : Bool :=
  timestamps.length < maxRequests

/-- Embeds `RequestRecord::record_request`: `Vec::push` of the current time. -/
def record_request (timestamps : List Nat) (now : Nat) : List Nat :=
  timestamps ++ [now]

/-- Embeds `RequestRecord::next_available`. -/
def next_available (timestamps : List Nat) (now window maxRequests : Nat) :
    Option Nat :=
  if timestamps.length < maxRequests then none
  else
    match timestamps.head? with
    | some oldest =>
        if now - oldest < window then some (window - (now - oldest)) else none
    | none => none

inductive AcquireOutcome where
  | acquired (newTimestamps : List Nat)
  | wait (d : Nat)
deriving DecidableEq

/-- One iteration of the loop in `RateLimiter::acquire`: clean up the
record, admit and record if strictly below `max_requests`, otherwise
compute the wait duration (the `unwrap_or` fallback of 100 mirrors the
source's `Duration::from_millis(100)`). -/
def acquire_step (cfg : RateLimitConfig) (timestamps : List Nat) (now : Nat) :
    AcquireOutcome :=
  let cleaned := cleanup now cfg.window_seconds timestamps
  if can_request cleaned cfg.max_requests then
    AcquireOutcome.acquired (record_request cleaned now)
  else
    AcquireOutcome.wait
      ((next_available cleaned now cfg.window_seconds cfg.max_requests).getD 100)

/-- A trace of admitted acquisition times for a single provider: each listed
time is admitted immediately by `acquire_step` on the record left by the
previous acquisitions. -/
def admitsFrom (cfg : RateLimitConfig) (timestamps : List Nat) :
    List Nat → Bool
  | [] => true
  | now :: rest =>
    match acquire_step cfg timestamps now with
    | AcquireOutcome.acquired ts => admitsFrom cfg ts rest
    | AcquireOutcome.wait _ => false

/-- Membership of a time in the sliding window `[s, s + window)`. -/
def inWindow (window s t : Nat) : Bool :=
  decide (s ≤ t) && decide (t < s + window)

/-- The record left after a sequence of admitted acquisitions `past`: all
times of `past` still inside the window anchored at the last acquisition. -/
def recordOf (window : Nat) (past : List Nat) : List Nat :=
  match past.getLast? with
  | none => []
  | some m => past.filter (fun t => m - t < window)

lemma cleanup_recordOf (window now : Nat) (past : List Nat)
    (hpast : ∀ t ∈ past, t ≤ now) :
    cleanup now window (recordOf window past)
      = past.filter (fun t => now - t < window) := by
  unfold recordOf
  cases hlast : past.getLast? with
  | none =>
      have : past = [] := List.getLast?_eq_none_iff.mp hlast
      subst this
      simp [cleanup]
  | some m =>
      have hm : m ∈ past := by
        have hx : m ∈ past.getLast? := Option.mem_def.mpr hlast
        obtain ⟨h, hEq⟩ := List.mem_getLast?_eq_getLast hx
        rw [hEq]
        exact List.getLast_mem h
      have hmn : m ≤ now := hpast m hm
      unfold cleanup
      rw [List.filter_filter]
      apply List.filter_congr
      intro t ht
      have htm : (now - t < window) → (m - t < window) := by
        intro h
        omega
      by_cases h : now - t < window
      · simp [h, htm h]
      · simp [h]

lemma recordOf_concat (window now : Nat) (l : List Nat) :
    recordOf window (l ++ [now])
      = (l ++ [now]).filter (fun t => now - t < window) := by
  unfold recordOf
  cases h : (l ++ [now]).getLast? with
  | none => simp [List.getLast?_concat] at h
  | some m =>
      rw [List.getLast?_concat] at h
      injection h with h
      subst h
      rfl

lemma recordOf_snoc (window now : Nat) (past : List Nat) (hW : 1 ≤ window)
    (hpast : ∀ t ∈ past, t ≤ now) :
    recordOf window (past ++ [now])
      = cleanup now window (recordOf window past) ++ [now] := by
  rw [recordOf_concat, List.filter_append,
    cleanup_recordOf window now past hpast]
  have h0 : 0 < window := hW
  simp [h0]

lemma countP_window_le_cleaned (window s now : Nat) (past : List Nat)
    (_hpast : ∀ t ∈ past, t ≤ now)
    (_hs : s ≤ now) (hsw : now < s + window) :
    past.countP (inWindow window s)
      ≤ past.countP (fun t => now - t < window) := by
  apply List.countP_mono_left
  intro t ht hw
  have h1 : s ≤ t ∧ t < s + window := by
    have := of_decide_eq_true (Bool.and_elim_left hw)
    have := of_decide_eq_true (Bool.and_elim_right hw)
    constructor <;> assumption
  simp only [decide_eq_true_eq]
  omega

lemma sliding_aux (cfg : RateLimitConfig) (hW : 1 ≤ cfg.window_seconds) :
    ∀ (times past : List Nat),
      List.Pairwise (· ≤ ·) (past ++ times) →
      admitsFrom cfg (recordOf cfg.window_seconds past) times = true →
      (∀ s, past.countP (inWindow cfg.window_seconds s) ≤ cfg.max_requests) →
      ∀ s, (past ++ times).countP (inWindow cfg.window_seconds s)
             ≤ cfg.max_requests := by
  intro times
  induction times with
  | nil =>
      intro past _ _ hcount s
      simpa using hcount s
  | cons now rest ih =>
      intro past hpair hadm hcount s
      have hpast : ∀ t ∈ past, t ≤ now := by
        intro t ht
        have := (List.pairwise_append.mp hpair).2.2
        exact this t ht now (List.mem_cons_self now rest)
      unfold admitsFrom at hadm
      unfold acquire_step at hadm
      by_cases hc : can_request
          (cleanup now cfg.window_seconds (recordOf cfg.window_seconds past))
          cfg.max_requests
      · simp only [hc, if_true] at hadm
        have hrec : recordOf cfg.window_seconds (past ++ [now])
            = cleanup now cfg.window_seconds (recordOf cfg.window_seconds past)
                ++ [now] :=
          recordOf_snoc cfg.window_seconds now past hW hpast
        have hadm2 : admitsFrom cfg
            (recordOf cfg.window_seconds (past ++ [now])) rest = true := by
          rw [hrec]
          simpa [record_request] using hadm
        have hpair2 : List.Pairwise (· ≤ ·) ((past ++ [now]) ++ rest) := by
          rw [List.append_assoc]
          simpa using hpair
        have hcount2 : ∀ s2, (past ++ [now]).countP
            (inWindow cfg.window_seconds s2) ≤ cfg.max_requests := by
          intro s2
          rw [List.countP_append]
          by_cases hin : inWindow cfg.window_seconds s2 now = true
          · have hb : s2 ≤ now ∧ now < s2 + cfg.window_seconds := by
              have h1 := of_decide_eq_true (Bool.and_elim_left hin)
              have h2 := of_decide_eq_true (Bool.and_elim_right hin)
              constructor <;> assumption
            have hlt : past.countP (inWindow cfg.window_seconds s2)
                < cfg.max_requests := by
              have step1 := countP_window_le_cleaned cfg.window_seconds s2 now
                past hpast hb.1 hb.2
              have step2 : past.countP
                  (fun t => now - t < cfg.window_seconds)
                  < cfg.max_requests := by
                have hlen := of_decide_eq_true hc
                have : (cleanup now cfg.window_seconds
                    (recordOf cfg.window_seconds past)).length
                    = past.countP (fun t => now - t < cfg.window_seconds) := by
                  rw [cleanup_recordOf cfg.window_seconds now past hpast]
                  rw [← List.countP_eq_length_filter]
                omega
              omega
            have hone : List.countP (inWindow cfg.window_seconds s2) [now]
                = 1 := by
              simp [List.countP_cons, hin]
            rw [hone]
            omega
          · have hzero : List.countP (inWindow cfg.window_seconds s2) [now]
                = 0 := by
              simp [List.countP_cons, hin]
            rw [hzero]
            simpa using hcount s2
        have := ih (past ++ [now]) hpair2 hadm2 hcount2 s
        rw [List.append_assoc] at this
        simpa using this
      · simp [hc] at hadm

/-- The per-window admission bound, from an empty initial record. -/
lemma sliding_window_bound (cfg : RateLimitConfig) (times : List Nat)
    (hadm : admitsFrom cfg [] times = true)
    (hmono : List.Pairwise (· ≤ ·) times) :
    ∀ s, times.countP (inWindow cfg.window_seconds s) ≤ cfg.max_requests := by
  intro s
  rcases Nat.eq_zero_or_pos cfg.window_seconds with hW | hW
  · have : times.countP (inWindow cfg.window_seconds s) = 0 := by
      apply List.countP_eq_zero.mpr
      intro t _
      unfold inWindow
      simp only [hW, Nat.add_zero, Bool.and_eq_true, decide_eq_true_eq, not_and]
      omega
    omega
  · have hrec : recordOf cfg.window_seconds ([] : List Nat) = [] := by
      simp [recordOf]
    have := sliding_aux cfg hW times [] (by simpa using hmono)
      (by rw [hrec]; exact hadm) (by intro s2; simp)
    simpa using this s

/-- C1: for every provider and every configuration with `max_requests = R`
and `window_seconds = W`, `RateLimiter::acquire` admits at most `R`
acquisitions inside any sliding window of length `W`: a loop iteration
records a timestamp only after dropping timestamps older than `W` and only
when the remaining count is strictly below `R`; otherwise it waits for the
time until the oldest retained timestamp ages out.  Consequently every
trace of admitted acquisition times (with monotone clock readings) has at
most `R` entries in any window `[s, s + W)`. -/
theorem rate_limiter_sliding_window (cfg : RateLimitConfig) (times : List Nat)
    (hadm : admitsFrom cfg [] times = true)
    (hmono : List.Pairwise (· ≤ ·) times) :
    (∀ ts now,
        can_request (cleanup now cfg.window_seconds ts) cfg.max_requests
          = true →
        acquire_step cfg ts now
          = AcquireOutcome.acquired
              (cleanup now cfg.window_seconds ts ++ [now]))
    ∧ (∀ ts now oldest rest,
        cleanup now cfg.window_seconds ts = oldest :: rest →
        can_request (oldest :: rest) cfg.max_requests = false →
        acquire_step cfg ts now
          = AcquireOutcome.wait (cfg.window_seconds - (now - oldest)))
    ∧ ∀ s, times.countP (inWindow cfg.window_seconds s) ≤ cfg.max_requests := by
  refine ⟨?_, ?_, sliding_window_bound cfg times hadm hmono⟩
  · intro ts now hcan
    unfold acquire_step
    simp only [hcan, if_true]
    rfl
  · intro ts now oldest rest hclean hcan
    have holdest : now - oldest < cfg.window_seconds := by
      have hmem : oldest ∈ cleanup now cfg.window_seconds ts := by
        rw [hclean]
        exact List.mem_cons_self oldest rest
      have := List.of_mem_filter hmem
      exact of_decide_eq_true this
    have hlen : ¬ (oldest :: rest).length < cfg.max_requests := by
      have := hcan
      unfold can_request at this
      simpa using this
    simp only [acquire_step, hclean, can_request, next_available, hcan,
      Bool.false_eq_true, if_false, if_neg hlen, List.head?_cons,
      if_pos holdest, Option.getD_some]
    simp [hlen]
    simp only [List.length_cons] at hlen
    omega

/-- Witness for C1 at a concrete configuration (`max_requests = 2`,
`window_seconds = 3`) and the admitted trace `[0, 1, 3, 4]`. -/
theorem rate_limiter_sliding_window_witness :
    admitsFrom ⟨5, 2, 3⟩ [] [0, 1, 3, 4] = true
    ∧ List.Pairwise (· ≤ ·) [0, 1, 3, 4]
    ∧ List.countP (inWindow 3 0) [0, 1, 3, 4] ≤ 2 :=
  ⟨by decide, by decide,
    (rate_limiter_sliding_window ⟨5, 2, 3⟩ [0, 1, 3, 4]
      (by decide) (by decide)).2.2 0⟩

/-!
## Entities (src/src/entities) and the file scanner
(src/src/services/file_scanner.rs)

The SQLite store is modelled as an in-memory list of rows with an
autoincrement counter.  The directory walk is modelled as the list of
entries it yields; the per-entry booleans model the success of the
filesystem metadata read and of the two database calls, which the source
counts as `errors` when they fail.
-/

inductive MediaType where
  | movie
  | tv
  | comic
  | book
deriving DecidableEq

structure LibraryFolder where
  id : Int
  name : String
  path : String
  media_type : MediaType
  enabled : Bool
deriving DecidableEq

structure MediaItemRow where
  id : Nat
  library_folder_id : Int
  media_type : MediaType
  title : String
  file_path : String
  file_size : Int
deriving DecidableEq

structure MediaDb where
  next_id : Nat
  rows : List MediaItemRow
deriving DecidableEq

/-- Embeds `MediaItem::find_by_path` (`SELECT ... WHERE file_path = ?`). -/
def find_by_path (db : MediaDb) (path : String) : Option MediaItemRow :=
  db.rows.find? (fun r => r.file_path == path)

structure CreateMediaItem where
  library_folder_id : Int
  media_type : MediaType
  title : String
  file_path : String
  file_size : Int

/-- Embeds `MediaItem::create` (`INSERT ... RETURNING *`). -/
def media_item_create (db : MediaDb) (item : CreateMediaItem) :
    MediaDb × MediaItemRow :=
  let row : MediaItemRow :=
    ⟨db.next_id, item.library_folder_id, item.media_type, item.title,
      item.file_path, item.file_size⟩
  (⟨db.next_id + 1, db.rows ++ [row]⟩, row)

/-- Embeds `get_supported_extensions`. -/
def get_supported_extensions : MediaType → List String
  | .movie | .tv =>
      ["mkv", "mp4", "avi", "mov", "wmv", "flv", "webm", "m4v", "mpg",
        "mpeg", "m2ts", "ts"]
  | .comic => ["cbz", "cbr", "cb7", "cbt", "pdf"]
  | .book => ["epub", "mobi", "azw3", "pdf"]

/-- Splitting a character list on a separator (the `str::split` /
`Path` component behaviour used by the scanner helpers). -/
def splitOnChar (sep : Char) : List Char → List (List Char)
  | [] => [[]]
  | c :: rest =>
    match splitOnChar sep rest with
    | [] => [[]]
    | part :: parts =>
        if c = sep then [] :: part :: parts else (c :: part) :: parts

/-- Joining character lists with a separator. -/
def intercalateChar (sep : Char) : List (List Char) → List Char
  | [] => []
  | [p] => p
  | p :: ps => p ++ sep :: intercalateChar sep ps

/-- The last path component, as `Path::file_name` yields for the paths the
walk produces. -/
def path_file_name (path : String) : List Char :=
  (splitOnChar '/' path.data).getLastD []

/-- Embeds `Path::extension`: the portion of the file name after its last
dot; absent when the name has no dot or an empty stem (dotfiles). -/
def file_extension (path : String) : Option (List Char) :=
  let parts := splitOnChar '.' (path_file_name path)
  if parts.length ≤ 1 then none
  else if intercalateChar '.' parts.dropLast = [] then none
  else some (parts.getLastD [])

/-- Embeds `extract_title` (`Path::file_stem` of the entry path). -/
def extract_title (path : String) : String :=
  let name := path_file_name path
  let parts := splitOnChar '.' name
  if parts.length ≤ 1 then String.mk name
  else
    let stem := intercalateChar '.' parts.dropLast
    if stem = [] then String.mk name else String.mk stem

/-- One entry yielded by the `WalkDir` traversal.  `meta_ok` models
`entry.metadata()` succeeding, `find_ok` the `find_by_path` query not
erroring, `create_ok` the `MediaItem::create` insert not erroring. -/
structure ScanEntry where
  path : String
  is_dir : Bool
  file_size : Int
  meta_ok : Bool
  find_ok : Bool
  create_ok : Bool
deriving DecidableEq

structure ScanResult where
  total_files : Nat
  new_items : Nat
  existing_items : Nat
  errors : Nat
deriving DecidableEq

structure ScanState where
  db : MediaDb
  result : ScanResult
deriving DecidableEq

/-- The loop body of `FileScanner::scan_library_folder` for one walk
entry. -/
def scan_entry_step (folder : LibraryFolder) (extensions : List String)
    (st : ScanState) (e : ScanEntry) : ScanState :=
  if e.is_dir then st
  else
    match file_extension e.path with
    | none => st
    | some ext =>
      if !((extensions.map String.data).contains (ext.map Char.toLower)) then st
      else
        let res := { st.result with total_files := st.result.total_files + 1 }
        if !e.meta_ok then
          { st with result := { res with errors := res.errors + 1 } }
        else if !e.find_ok then
          { st with result := { res with errors := res.errors + 1 } }
        else
          match find_by_path st.db e.path with
          | some _ =>
              { st with result :=
                  { res with existing_items := res.existing_items + 1 } }
          | none =>
              if !e.create_ok then
                { st with result := { res with errors := res.errors + 1 } }
              else
                let created := media_item_create st.db
                  ⟨folder.id, folder.media_type, extract_title e.path,
                    e.path, e.file_size⟩
                { db := created.1,
                  result := { res with new_items := res.new_items + 1 } }

/-- The filesystem as seen by one `scan_library_folder` invocation. -/
structure FolderFs where
  path_exists : Bool
  path_is_dir : Bool
  entries : List ScanEntry
deriving DecidableEq

inductive FileScannerError where
  | pathNotFound (path : String)
  | notADirectory (path : String)
  | databaseError (msg : String)
deriving DecidableEq

/-- Embeds `FileScanner::scan_library_folder`. -/
def scan_library_folder (fs : FolderFs) (folder : LibraryFolder)
    (db : MediaDb) : Except FileScannerError (ScanResult × MediaDb) :=
  if !fs.path_exists then Except.error (FileScannerError.pathNotFound folder.path)
  else if !fs.path_is_dir then
    Except.error (FileScannerError.notADirectory folder.path)
  else
    let final := fs.entries.foldl
      (scan_entry_step folder (get_supported_extensions folder.media_type))
      ⟨db, ⟨0, 0, 0, 0⟩⟩
    Except.ok (final.result, final.db)

/-- The loop of `FileScanner::scan_all_libraries` over the already
filtered folder list, threading the store. -/
def scan_all_go (db : MediaDb) :
    List (LibraryFolder × FolderFs) →
      List (LibraryFolder × ScanResult) × MediaDb
  | [] => ([], db)
  | (folder, fs) :: rest =>
    match scan_library_folder fs folder db with
    | Except.ok (r, db2) =>
        let tail := scan_all_go db2 rest
        ((folder, r) :: tail.1, tail.2)
    | Except.error _ =>
        let tail := scan_all_go db rest
        ((folder, ⟨0, 0, 0, 1⟩) :: tail.1, tail.2)

/-- Embeds `FileScanner::scan_all_libraries`: `LibraryFolder::list_enabled`
filters the enabled folders, each is scanned, and a failed scan is recorded
in-band as `ScanResult { 0, 0, 0, 1 }` for that folder. -/
def scan_all_libraries (folders : List (LibraryFolder × FolderFs))
    (db : MediaDb) : List (LibraryFolder × ScanResult) × MediaDb :=
  scan_all_go db (folders.filter (fun fp => fp.1.enabled))

/-- An entry counted by the scanner: a non-directory whose lowercased
extension is in the folder's supported set. -/
def supported_file (extensions : List String) (e : ScanEntry) : Bool :=
  !e.is_dir &&
    (match file_extension e.path with
      | some ext => (extensions.map String.data).contains (ext.map Char.toLower)
      | none => false)

lemma scan_entry_step_inv (folder : LibraryFolder) (exts : List String)
    (st : ScanState) (e : ScanEntry)
    (h : st.result.total_files
      = st.result.new_items + st.result.existing_items + st.result.errors) :
    (scan_entry_step folder exts st e).result.total_files
      = (scan_entry_step folder exts st e).result.new_items
        + (scan_entry_step folder exts st e).result.existing_items
        + (scan_entry_step folder exts st e).result.errors := by
  unfold scan_entry_step
  repeat' split
  all_goals simp_all
  all_goals omega

lemma scan_fold_inv (folder : LibraryFolder) (exts : List String) :
    ∀ (entries : List ScanEntry) (st : ScanState),
      st.result.total_files
        = st.result.new_items + st.result.existing_items + st.result.errors →
      (entries.foldl (scan_entry_step folder exts) st).result.total_files
        = (entries.foldl (scan_entry_step folder exts) st).result.new_items
          + (entries.foldl (scan_entry_step folder exts) st).result.existing_items
          + (entries.foldl (scan_entry_step folder exts) st).result.errors := by
  intro entries
  induction entries with
  | nil => intro st h; exact h
  | cons e rest ih =>
      intro st h
      exact ih _ (scan_entry_step_inv folder exts st e h)

/-- C9: every successful `scan_library_folder` returns counters in which
each counted file lands in exactly one bucket, so
`total_files = new_items + existing_items + errors`. -/
theorem scan_result_partition (fs : FolderFs) (folder : LibraryFolder)
    (db : MediaDb) (r : ScanResult) (db2 : MediaDb)
    (h : scan_library_folder fs folder db = Except.ok (r, db2)) :
    r.total_files = r.new_items + r.existing_items + r.errors := by
  unfold scan_library_folder at h
  by_cases hpe : fs.path_exists = true
  · by_cases hpd : fs.path_is_dir = true
    · simp only [hpe, hpd, Bool.not_true, Bool.false_eq_true, if_false] at h
      injection h with h
      have hr : r = (fs.entries.foldl
          (scan_entry_step folder (get_supported_extensions folder.media_type))
          ⟨db, ⟨0, 0, 0, 0⟩⟩).result := by
        have := congrArg Prod.fst h
        simpa using this.symm
      rw [hr]
      exact scan_fold_inv folder _ fs.entries ⟨db, ⟨0, 0, 0, 0⟩⟩ (by simp)
    · simp [hpe, hpd] at h
  · simp [hpe] at h

lemma scan_ok_flags (fs : FolderFs) (folder : LibraryFolder) (db : MediaDb)
    (x : ScanResult × MediaDb)
    (h : scan_library_folder fs folder db = Except.ok x) :
    fs.path_exists = true ∧ fs.path_is_dir = true := by
  unfold scan_library_folder at h
  by_cases hpe : fs.path_exists = true
  · by_cases hpd : fs.path_is_dir = true
    · exact ⟨hpe, hpd⟩
    · simp [hpe, hpd] at h
  · simp [hpe] at h

lemma scan_all_go_spec :
    ∀ (l : List (LibraryFolder × FolderFs)) (db : MediaDb),
      List.Forall₂
        (fun fp res => res.1 = fp.1 ∧
          ((fp.2.path_exists && fp.2.path_is_dir) = false →
            res.2 = ⟨0, 0, 0, 1⟩ ∧ 1 ≤ res.2.errors))
        l (scan_all_go db l).1 := by
  intro l
  induction l with
  | nil => intro db; exact List.Forall₂.nil
  | cons p rest ih =>
      intro db
      obtain ⟨folder, fs⟩ := p
      unfold scan_all_go
      cases hscan : scan_library_folder fs folder db with
      | ok x =>
          obtain ⟨r, db2⟩ := x
          refine List.Forall₂.cons ⟨rfl, ?_⟩ (ih db2)
          intro hbad
          obtain ⟨hpe, hpd⟩ := scan_ok_flags fs folder db (r, db2) hscan
          rw [hpe, hpd] at hbad
          simp at hbad
      | error e =>
          exact List.Forall₂.cons ⟨rfl, fun _ => ⟨rfl, le_refl 1⟩⟩ (ih db)

lemma scan_all_go_map_fst :
    ∀ (l : List (LibraryFolder × FolderFs)) (db : MediaDb),
      ((scan_all_go db l).1.map Prod.fst) = l.map Prod.fst := by
  intro l
  induction l with
  | nil => intro db; rfl
  | cons p rest ih =>
      intro db
      obtain ⟨folder, fs⟩ := p
      unfold scan_all_go
      cases hscan : scan_library_folder fs folder db with
      | ok x =>
          obtain ⟨r, db2⟩ := x
          simp [ih db2]
      | error e => simp [ih db]

/-- C8: `scan_all_libraries` scans exactly the enabled folders, in order,
producing one result per enabled folder; a folder whose scan fails is
reported in-band as `ScanResult { 0, 0, 0, 1 }` (so `errors ≥ 1`) and the
remaining folders are still scanned. -/
theorem scan_all_enabled_in_band (folders : List (LibraryFolder × FolderFs))
    (db : MediaDb) :
    ((scan_all_libraries folders db).1.map Prod.fst
        = (folders.filter (fun fp => fp.1.enabled)).map Prod.fst)
    ∧ List.Forall₂
        (fun fp res => res.1 = fp.1 ∧
          ((fp.2.path_exists && fp.2.path_is_dir) = false →
            res.2 = ⟨0, 0, 0, 1⟩ ∧ 1 ≤ res.2.errors))
        (folders.filter (fun fp => fp.1.enabled))
        (scan_all_libraries folders db).1
    ∧ ∀ fr ∈ (scan_all_libraries folders db).1, fr.1.enabled = true := by
  refine ⟨scan_all_go_map_fst _ db, scan_all_go_spec _ db, ?_⟩
  intro fr hfr
  have hmem : fr.1 ∈ (scan_all_libraries folders db).1.map Prod.fst :=
    List.mem_map_of_mem Prod.fst hfr
  unfold scan_all_libraries at hmem
  rw [scan_all_go_map_fst _ db] at hmem
  obtain ⟨fp, hfp, hfeq⟩ := List.mem_map.mp hmem
  rw [← hfeq]
  have := List.mem_filter.mp hfp
  simpa using this.2

/-- A path already stored in the media item table. -/
def DbHas (db : MediaDb) (p : String) : Prop :=
  ∃ r ∈ db.rows, r.file_path = p

lemma find_by_path_isSome_of_dbHas (db : MediaDb) (p : String)
    (h : DbHas db p) : (find_by_path db p).isSome := by
  obtain ⟨r, hr, hp⟩ := h
  unfold find_by_path
  rw [List.find?_isSome]
  exact ⟨r, hr, by simp [hp]⟩

lemma dbHas_of_find (db : MediaDb) (p : String) (r : MediaItemRow)
    (h : find_by_path db p = some r) : DbHas db p := by
  unfold find_by_path at h
  have hmem := List.mem_of_find?_eq_some h
  have hpred := List.find?_some h
  exact ⟨r, hmem, by simpa using hpred⟩

lemma scan_entry_step_db_mono (folder : LibraryFolder) (exts : List String)
    (st : ScanState) (e : ScanEntry) (p : String) (h : DbHas st.db p) :
    DbHas (scan_entry_step folder exts st e).db p := by
  obtain ⟨r, hr, hp⟩ := h
  unfold scan_entry_step
  repeat' split
  all_goals
    first
      | exact ⟨r, hr, hp⟩
      | (refine ⟨r, ?_, hp⟩
         simp only [media_item_create, List.mem_append]
         exact Or.inl hr)

lemma supported_file_parts (exts : List String) (e : ScanEntry)
    (hs : supported_file exts e = true) :
    e.is_dir = false ∧ ∃ ext, file_extension e.path = some ext ∧
      (exts.map String.data).contains (ext.map Char.toLower) = true := by
  unfold supported_file at hs
  have hs2 : (!e.is_dir) = true ∧
      (match file_extension e.path with
        | some ext => (exts.map String.data).contains (ext.map Char.toLower)
        | none => false) = true := by
    constructor
    · exact Bool.and_elim_left hs
    · exact Bool.and_elim_right hs
  obtain ⟨hd, hrest⟩ := hs2
  refine ⟨by simpa using hd, ?_⟩
  cases hext : file_extension e.path with
  | none => rw [hext] at hrest; simp at hrest
  | some ext => rw [hext] at hrest; exact ⟨ext, rfl, hrest⟩

lemma scan_entry_step_supported (folder : LibraryFolder) (exts : List String)
    (st : ScanState) (e : ScanEntry)
    (hs : supported_file exts e = true) :
    scan_entry_step folder exts st e
      = if !e.meta_ok then
          ⟨st.db, ⟨st.result.total_files + 1, st.result.new_items,
            st.result.existing_items, st.result.errors + 1⟩⟩
        else if !e.find_ok then
          ⟨st.db, ⟨st.result.total_files + 1, st.result.new_items,
            st.result.existing_items, st.result.errors + 1⟩⟩
        else
          match find_by_path st.db e.path with
          | some _ =>
              ⟨st.db, ⟨st.result.total_files + 1, st.result.new_items,
                st.result.existing_items + 1, st.result.errors⟩⟩
          | none =>
              if !e.create_ok then
                ⟨st.db, ⟨st.result.total_files + 1, st.result.new_items,
                  st.result.existing_items, st.result.errors + 1⟩⟩
              else
                ⟨(media_item_create st.db
                    ⟨folder.id, folder.media_type, extract_title e.path,
                      e.path, e.file_size⟩).1,
                  ⟨st.result.total_files + 1, st.result.new_items + 1,
                    st.result.existing_items, st.result.errors⟩⟩ := by
  obtain ⟨hd, ext, hext, hcont⟩ := supported_file_parts exts e hs
  unfold scan_entry_step
  rw [hd, hext]
  simp only [Bool.false_eq_true, if_false]
  rw [hcont]
  simp only [Bool.not_true, Bool.false_eq_true, if_false]

lemma scan_entry_step_db_has_self (folder : LibraryFolder)
    (exts : List String) (st : ScanState) (e : ScanEntry)
    (hs : supported_file exts e = true) (hm : e.meta_ok = true)
    (hf : e.find_ok = true) (hc : e.create_ok = true) :
    DbHas (scan_entry_step folder exts st e).db e.path := by
  rw [scan_entry_step_supported folder exts st e hs]
  cases hfind : find_by_path st.db e.path with
  | some r =>
      simp only [hm, hf, hfind, Bool.not_true, Bool.false_eq_true, if_false]
      exact dbHas_of_find st.db e.path r hfind
  | none =>
      simp only [hm, hf, hc, hfind, Bool.not_true, Bool.false_eq_true,
        if_false]
      refine ⟨⟨st.db.next_id, folder.id, folder.media_type,
        extract_title e.path, e.path, e.file_size⟩, ?_, rfl⟩
      simp [media_item_create]

lemma scan_fold_db_mono (folder : LibraryFolder) (exts : List String) :
    ∀ (entries : List ScanEntry) (st : ScanState) (p : String),
      DbHas st.db p →
      DbHas ((entries.foldl (scan_entry_step folder exts) st)).db p := by
  intro entries
  induction entries with
  | nil => intro st p h; exact h
  | cons e rest ih =>
      intro st p h
      exact ih _ p (scan_entry_step_db_mono folder exts st e p h)

lemma scan_fold_db_has (folder : LibraryFolder) (exts : List String) :
    ∀ (entries : List ScanEntry) (st : ScanState),
      (∀ e ∈ entries, e.meta_ok = true ∧ e.find_ok = true ∧ e.create_ok = true) →
      ∀ e ∈ entries, supported_file exts e = true →
        DbHas ((entries.foldl (scan_entry_step folder exts) st)).db e.path := by
  intro entries
  induction entries with
  | nil => intro st _ e he; cases he
  | cons e0 rest ih =>
      intro st hflags e he hs
      rcases List.mem_cons.mp he with he0 | hrest
      · subst he0
        rcases hflags e (List.mem_cons_self e rest) with ⟨hm, hf, hc⟩
        rw [List.foldl_cons]
        exact scan_fold_db_mono folder exts rest _ e.path
          (scan_entry_step_db_has_self folder exts st e hs hm hf hc)
      · rw [List.foldl_cons]
        exact ih _ (fun x hx => hflags x (List.mem_cons_of_mem e0 hx)) e hrest hs

lemma scan_entry_step_unsupported (folder : LibraryFolder)
    (exts : List String) (st : ScanState) (e : ScanEntry)
    (hs : supported_file exts e = false) :
    scan_entry_step folder exts st e = st := by
  unfold supported_file at hs
  unfold scan_entry_step
  cases hd : e.is_dir with
  | true => simp [hd]
  | false =>
      rw [hd] at hs
      simp only [Bool.not_false, Bool.true_and] at hs
      cases hext : file_extension e.path with
      | none => rfl
      | some ext =>
          rw [hext] at hs
          have hs2 : (exts.map String.data).contains (ext.map Char.toLower)
              = false := hs
          simp only [Bool.false_eq_true, if_false]
          rw [hs2]
          rfl

lemma scan_entry_step_total (folder : LibraryFolder) (exts : List String)
    (st : ScanState) (e : ScanEntry) :
    (scan_entry_step folder exts st e).result.total_files
      = st.result.total_files
        + (if supported_file exts e = true then 1 else 0) := by
  by_cases hs : supported_file exts e = true
  · rw [scan_entry_step_supported folder exts st e hs]
    cases hm : e.meta_ok <;> cases hf : e.find_ok <;>
      cases hc : e.create_ok <;>
        cases hfind : find_by_path st.db e.path <;>
          simp [hm, hf, hc, hfind, hs]
  · rw [scan_entry_step_unsupported folder exts st e
      (by simpa using hs)]
    simp [hs]

lemma scan_fold_total (folder : LibraryFolder) (exts : List String) :
    ∀ (entries : List ScanEntry) (st : ScanState),
      ((entries.foldl (scan_entry_step folder exts) st)).result.total_files
        = st.result.total_files + entries.countP (supported_file exts) := by
  intro entries
  induction entries with
  | nil => intro st; simp
  | cons e rest ih =>
      intro st
      rw [List.foldl_cons, ih, scan_entry_step_total, List.countP_cons]
      by_cases hs : supported_file exts e = true <;> simp [hs] <;> try omega

lemma scan_entry_step_run2 (folder : LibraryFolder) (exts : List String)
    (st : ScanState) (e : ScanEntry)
    (hs : supported_file exts e = true) (hm : e.meta_ok = true)
    (hf : e.find_ok = true) (hhas : DbHas st.db e.path) :
    scan_entry_step folder exts st e
      = ⟨st.db, ⟨st.result.total_files + 1, st.result.new_items,
          st.result.existing_items + 1, st.result.errors⟩⟩ := by
  have hfind := find_by_path_isSome_of_dbHas st.db e.path hhas
  obtain ⟨r, hr⟩ := Option.isSome_iff_exists.mp hfind
  rw [scan_entry_step_supported folder exts st e hs]
  simp only [hm, hf, hr, Bool.not_true, Bool.false_eq_true, if_false]

lemma scan_fold_run2 (folder : LibraryFolder) (exts : List String) :
    ∀ (entries : List ScanEntry) (st : ScanState),
      (∀ e ∈ entries, e.meta_ok = true ∧ e.find_ok = true ∧ e.create_ok = true) →
      (∀ e ∈ entries, supported_file exts e = true → DbHas st.db e.path) →
      entries.foldl (scan_entry_step folder exts) st
        = ⟨st.db,
            ⟨st.result.total_files + entries.countP (supported_file exts),
              st.result.new_items,
              st.result.existing_items + entries.countP (supported_file exts),
              st.result.errors⟩⟩ := by
  intro entries
  induction entries with
  | nil => intro st _ _; simp
  | cons e rest ih =>
      intro st hflags hhas
      rw [List.foldl_cons]
      by_cases hs : supported_file exts e = true
      · rcases hflags e (List.mem_cons_self e rest) with ⟨hm, hf, _⟩
        rw [scan_entry_step_run2 folder exts st e hs hm hf
          (hhas e (List.mem_cons_self e rest) hs)]
        rw [ih ⟨st.db, ⟨st.result.total_files + 1, st.result.new_items,
            st.result.existing_items + 1, st.result.errors⟩⟩
          (fun x hx => hflags x (List.mem_cons_of_mem e hx))
          (fun x hx hxs => hhas x (List.mem_cons_of_mem e hx) hxs)]
        rw [List.countP_cons]
        simp [hs]
        constructor <;> omega
      · rw [scan_entry_step_unsupported folder exts st e (by simpa using hs)]
        rw [ih st (fun x hx => hflags x (List.mem_cons_of_mem e hx))
          (fun x hx hxs => hhas x (List.mem_cons_of_mem e hx) hxs)]
        rw [List.countP_cons]
        simp [hs]

/-- C2: rescanning an unchanged folder (all reads and inserts succeeding)
reports `new_items = 0`, `existing_items` equal to the first run's
`total_files`, `errors = 0`, and leaves the media item table unchanged. -/
theorem scan_rescan_idempotent (fs : FolderFs) (folder : LibraryFolder)
    (db : MediaDb)
    (hpe : fs.path_exists = true) (hpd : fs.path_is_dir = true)
    (hflags : ∀ e ∈ fs.entries,
      e.meta_ok = true ∧ e.find_ok = true ∧ e.create_ok = true)
    (r1 : ScanResult) (db1 : MediaDb)
    (h1 : scan_library_folder fs folder db = Except.ok (r1, db1)) :
    scan_library_folder fs folder db1
      = Except.ok (⟨r1.total_files, 0, r1.total_files, 0⟩, db1) := by
  unfold scan_library_folder at h1 ⊢
  simp only [hpe, hpd, Bool.not_true, Bool.false_eq_true, if_false] at h1 ⊢
  injection h1 with h1
  have hr1 : r1 = (fs.entries.foldl
      (scan_entry_step folder (get_supported_extensions folder.media_type))
      ⟨db, ⟨0, 0, 0, 0⟩⟩).result := by
    have := congrArg Prod.fst h1
    simpa using this.symm
  have hdb1 : db1 = (fs.entries.foldl
      (scan_entry_step folder (get_supported_extensions folder.media_type))
      ⟨db, ⟨0, 0, 0, 0⟩⟩).db := by
    have := congrArg Prod.snd h1
    simpa using this.symm
  have htot : r1.total_files
      = fs.entries.countP
          (supported_file (get_supported_extensions folder.media_type)) := by
    rw [hr1, scan_fold_total]
    simp
  have hhas : ∀ e ∈ fs.entries,
      supported_file (get_supported_extensions folder.media_type) e = true →
      DbHas db1 e.path := by
    intro e he hs
    rw [hdb1]
    exact scan_fold_db_has folder _ fs.entries ⟨db, ⟨0, 0, 0, 0⟩⟩ hflags e he hs
  rw [scan_fold_run2 folder _ fs.entries ⟨db1, ⟨0, 0, 0, 0⟩⟩ hflags
    (by intro e he hs; exact hhas e he hs)]
  simp [htot]

/-- Witness for C2: a one-file filesystem scanned twice. -/
theorem scan_rescan_idempotent_witness :
    scan_library_folder
        ⟨true, true, [⟨"/m/b.mp4", false, 7, true, true, true⟩]⟩
        ⟨2, "m", "/m", MediaType.movie, true⟩ ⟨0, []⟩
      = Except.ok (⟨1, 1, 0, 0⟩,
          ⟨1, [⟨0, 2, MediaType.movie, "b", "/m/b.mp4", 7⟩]⟩)
    ∧ scan_library_folder
        ⟨true, true, [⟨"/m/b.mp4", false, 7, true, true, true⟩]⟩
        ⟨2, "m", "/m", MediaType.movie, true⟩
        ⟨1, [⟨0, 2, MediaType.movie, "b", "/m/b.mp4", 7⟩]⟩
      = Except.ok (⟨1, 0, 1, 0⟩,
          ⟨1, [⟨0, 2, MediaType.movie, "b", "/m/b.mp4", 7⟩]⟩) :=
  ⟨by rfl,
    scan_rescan_idempotent
      ⟨true, true, [⟨"/m/b.mp4", false, 7, true, true, true⟩]⟩
      ⟨2, "m", "/m", MediaType.movie, true⟩ ⟨0, []⟩
      rfl rfl (by intro e he; cases he with
        | head => exact ⟨rfl, rfl, rfl⟩
        | tail _ h => cases h)
      ⟨1, 1, 0, 0⟩ ⟨1, [⟨0, 2, MediaType.movie, "b", "/m/b.mp4", 7⟩]⟩
      (by rfl)⟩

/-- Witness for C9 on a one-file filesystem. -/
theorem scan_result_partition_witness :
    scan_library_folder
        ⟨true, true, [⟨"/m/a.mkv", false, 10, true, true, true⟩]⟩
        ⟨1, "m", "/m", MediaType.movie, true⟩ ⟨0, []⟩
      = Except.ok (⟨1, 1, 0, 0⟩,
          ⟨1, [⟨0, 1, MediaType.movie, "a", "/m/a.mkv", 10⟩]⟩)
    ∧ (1 : Nat) = 1 + 0 + 0 :=
  ⟨by rfl,
    scan_result_partition
      ⟨true, true, [⟨"/m/a.mkv", false, 10, true, true, true⟩]⟩
      ⟨1, "m", "/m", MediaType.movie, true⟩ ⟨0, []⟩
      ⟨1, 1, 0, 0⟩ ⟨1, [⟨0, 1, MediaType.movie, "a", "/m/a.mkv", 10⟩]⟩
      (by rfl)⟩

/-!
## Video metadata upsert (src/src/entities/video_metadata.rs)

`ON CONFLICT(media_item_id) DO UPDATE` relies on the unique index on
`media_item_id`; the table is modelled as a row list with that invariant.
`now` stands for `CURRENT_TIMESTAMP` at statement execution; the insert
branch fills `created_at`/`updated_at` from the schema defaults.  `f64`
columns are only copied verbatim by this code, never computed with, so an
opaque representation suffices; the JSON-encoded `genres` text column is
represented by the (deterministically encoded) list itself.
-/

abbrev F64Repr := Int

structure VideoMetadataRow where
  id : Nat
  media_item_id : Int
  tmdb_id : Option Int
  tvdb_id : Option Int
  imdb_id : Option String
  overview : Option String
  poster_path : Option String
  backdrop_path : Option String
  release_date : Option String
  runtime : Option Int
  vote_average : Option F64Repr
  vote_count : Option Int
  genres : List String
  created_at : Nat
  updated_at : Nat
deriving DecidableEq

structure CreateVideoMetadata where
  media_item_id : Int
  tmdb_id : Option Int
  tvdb_id : Option Int
  imdb_id : Option String
  overview : Option String
  poster_path : Option String
  backdrop_path : Option String
  release_date : Option String
  runtime : Option Int
  vote_average : Option F64Repr
  vote_count : Option Int
  genres : List String
deriving DecidableEq

structure VideoMetadataDb where
  vm_next_id : Nat
  rows : List VideoMetadataRow
deriving DecidableEq

/-- The `DO UPDATE SET` clause: replace every metadata column with the
excluded values and refresh `updated_at`; `id`, `media_item_id` and
`created_at` are untouched. -/
def overwrite_row (r : VideoMetadataRow) (m : CreateVideoMetadata)
    (now : Nat) : VideoMetadataRow :=
  { r with
    tmdb_id := m.tmdb_id, tvdb_id := m.tvdb_id, imdb_id := m.imdb_id,
    overview := m.overview, poster_path := m.poster_path,
    backdrop_path := m.backdrop_path, release_date := m.release_date,
    runtime := m.runtime, vote_average := m.vote_average,
    vote_count := m.vote_count, genres := m.genres, updated_at := now }

/-- The plain `INSERT` branch: a fresh row with default timestamps. -/
def fresh_row (id : Nat) (m : CreateVideoMetadata) (now : Nat) :
    VideoMetadataRow :=
  ⟨id, m.media_item_id, m.tmdb_id, m.tvdb_id, m.imdb_id, m.overview,
    m.poster_path, m.backdrop_path, m.release_date, m.runtime,
    m.vote_average, m.vote_count, m.genres, now, now⟩

/-- Embeds `VideoMetadata::upsert` (`INSERT ... ON CONFLICT(media_item_id)
DO UPDATE SET ... RETURNING *`). -/
def vm_upsert (db : VideoMetadataDb) (m : CreateVideoMetadata) (now : Nat) :
    VideoMetadataDb × VideoMetadataRow :=
  match db.rows.find? (fun r => r.media_item_id == m.media_item_id) with
  | some r =>
      (⟨db.vm_next_id,
        db.rows.map (fun x =>
          if x.media_item_id == m.media_item_id then overwrite_row x m now
          else x)⟩,
        overwrite_row r m now)
  | none =>
      (⟨db.vm_next_id + 1, db.rows ++ [fresh_row db.vm_next_id m now]⟩,
        fresh_row db.vm_next_id m now)

/-- Embeds `VideoMetadata::find_by_media_item_id`. -/
def find_by_media_item_id (db : VideoMetadataDb) (mid : Int) :
    Option VideoMetadataRow :=
  db.rows.find? (fun r => r.media_item_id == mid)

/-- The unique-index invariant on `media_item_id`. -/
def UniqueMid (db : VideoMetadataDb) : Prop :=
  db.rows.Pairwise (fun a b => a.media_item_id ≠ b.media_item_id)

lemma find?_append_of_none {α : Type} (p : α → Bool) (l1 l2 : List α)
    (h : l1.find? p = none) : (l1 ++ l2).find? p = l2.find? p := by
  induction l1 with
  | nil => rfl
  | cons x rest ih =>
      cases hx : p x with
      | true =>
          rw [List.find?_cons_of_pos rest hx] at h
          cases h
      | false =>
          rw [List.find?_cons_of_neg rest (by simp [hx])] at h
          rw [show (x :: rest) ++ l2 = x :: (rest ++ l2) from rfl]
          rw [List.find?_cons_of_neg (rest ++ l2) (by simp [hx])]
          exact ih h

lemma find?_map_overwrite (m : CreateVideoMetadata) (now : Nat)
    (l : List VideoMetadataRow) (r : VideoMetadataRow)
    (h : l.find? (fun x => x.media_item_id == m.media_item_id) = some r) :
    (l.map (fun x =>
        if x.media_item_id == m.media_item_id then overwrite_row x m now
        else x)).find? (fun x => x.media_item_id == m.media_item_id)
      = some (overwrite_row r m now) := by
  induction l with
  | nil => cases h
  | cons x rest ih =>
      cases hx : (x.media_item_id == m.media_item_id) with
      | true =>
          rw [List.find?_cons_of_pos rest hx] at h
          injection h with h
          subst h
          simp only [List.map_cons]
          rw [if_pos hx]
          have hover : ((overwrite_row x m now).media_item_id
              == m.media_item_id) = true := hx
          exact List.find?_cons_of_pos _ hover
      | false =>
          rw [List.find?_cons_of_neg rest (by simp [hx])] at h
          simp only [List.map_cons]
          rw [if_neg (by simp [hx])]
          rw [List.find?_cons_of_neg _ (by simp [hx])]
          exact ih h

lemma find?_of_mem_unique (l : List VideoMetadataRow) (mid : Int)
    (r : VideoMetadataRow)
    (huniq : l.Pairwise (fun a b => a.media_item_id ≠ b.media_item_id))
    (hmem : r ∈ l) (hmid : r.media_item_id = mid) :
    l.find? (fun x => x.media_item_id == mid) = some r := by
  induction l with
  | nil => cases hmem
  | cons x rest ih =>
      rcases List.mem_cons.mp hmem with rfl | hrest
      · exact List.find?_cons_of_pos rest (by simp [hmid])
      · have hne : x.media_item_id ≠ r.media_item_id :=
          (List.pairwise_cons.mp huniq).1 r hrest
        have hxf : ¬ ((x.media_item_id == mid) = true) := by
          simp only [beq_iff_eq]
          rw [← hmid]
          exact hne
        rw [List.find?_cons_of_neg rest hxf]
        exact ih (List.pairwise_cons.mp huniq).2 hrest

lemma vm_upsert_fields (db : VideoMetadataDb) (m : CreateVideoMetadata)
    (now : Nat) :
    (vm_upsert db m now).2.media_item_id = m.media_item_id
    ∧ (vm_upsert db m now).2.tmdb_id = m.tmdb_id
    ∧ (vm_upsert db m now).2.tvdb_id = m.tvdb_id
    ∧ (vm_upsert db m now).2.imdb_id = m.imdb_id
    ∧ (vm_upsert db m now).2.overview = m.overview
    ∧ (vm_upsert db m now).2.poster_path = m.poster_path
    ∧ (vm_upsert db m now).2.backdrop_path = m.backdrop_path
    ∧ (vm_upsert db m now).2.release_date = m.release_date
    ∧ (vm_upsert db m now).2.runtime = m.runtime
    ∧ (vm_upsert db m now).2.vote_average = m.vote_average
    ∧ (vm_upsert db m now).2.vote_count = m.vote_count
    ∧ (vm_upsert db m now).2.genres = m.genres
    ∧ (vm_upsert db m now).2.updated_at = now := by
  unfold vm_upsert
  cases hf : db.rows.find? (fun r => r.media_item_id == m.media_item_id) with
  | some r =>
      have hmid : r.media_item_id = m.media_item_id := by
        have := List.find?_some hf
        simpa using this
      simp [overwrite_row, hmid]
  | none => simp [fresh_row]

lemma vm_upsert_of_find (db : VideoMetadataDb) (m : CreateVideoMetadata)
    (now : Nat) (r : VideoMetadataRow)
    (h : db.rows.find? (fun x => x.media_item_id == m.media_item_id)
      = some r) :
    (vm_upsert db m now).2 = overwrite_row r m now := by
  unfold vm_upsert
  rw [h]

lemma vm_upsert_find_self (db : VideoMetadataDb) (m : CreateVideoMetadata)
    (now : Nat) :
    find_by_media_item_id (vm_upsert db m now).1 m.media_item_id
      = some (vm_upsert db m now).2 := by
  unfold find_by_media_item_id vm_upsert
  cases hf : db.rows.find? (fun r => r.media_item_id == m.media_item_id) with
  | some r => exact find?_map_overwrite m now db.rows r hf
  | none =>
      have happ := find?_append_of_none
        (fun r => r.media_item_id == m.media_item_id) db.rows
        [fresh_row db.vm_next_id m now] hf
      simp only [happ]
      simp [fresh_row]

lemma vm_upsert_unique (db : VideoMetadataDb) (m : CreateVideoMetadata)
    (now : Nat) (huniq : UniqueMid db) : UniqueMid (vm_upsert db m now).1 := by
  unfold UniqueMid at huniq ⊢
  unfold vm_upsert
  cases hf : db.rows.find? (fun r => r.media_item_id == m.media_item_id) with
  | some r =>
      refine List.Pairwise.map _ ?_ huniq
      intro a b hab
      by_cases ha : (a.media_item_id == m.media_item_id) = true <;>
        by_cases hb : (b.media_item_id == m.media_item_id) = true <;>
          simp [ha, hb, overwrite_row, hab]
  | none =>
      rw [List.pairwise_append]
      refine ⟨huniq, by simp, ?_⟩
      intro a ha b hb
      have hb2 : b = fresh_row db.vm_next_id m now := by simpa using hb
      subst hb2
      have hnot := List.find?_eq_none.mp hf a ha
      simp only [fresh_row]
      simpa using hnot

/-- C3: `VideoMetadata::upsert` keeps at most one row per `media_item_id`;
when a row for that id exists it replaces every metadata column with the
new values and refreshes `updated_at`; the returned row carries exactly the
upserted values; and the same upsert applied twice yields the same row
content with `updated_at` non-decreasing. -/
theorem video_metadata_upsert_spec (db : VideoMetadataDb)
    (m : CreateVideoMetadata) (t1 t2 : Nat)
    (huniq : UniqueMid db) (ht : t1 ≤ t2) :
    UniqueMid (vm_upsert db m t1).1
    ∧ (∀ r ∈ db.rows, r.media_item_id = m.media_item_id →
        (vm_upsert db m t1).2 = overwrite_row r m t1)
    ∧ find_by_media_item_id (vm_upsert db m t1).1 m.media_item_id
        = some (vm_upsert db m t1).2
    ∧ ((vm_upsert db m t1).2.tmdb_id = m.tmdb_id
        ∧ (vm_upsert db m t1).2.tvdb_id = m.tvdb_id
        ∧ (vm_upsert db m t1).2.imdb_id = m.imdb_id
        ∧ (vm_upsert db m t1).2.overview = m.overview
        ∧ (vm_upsert db m t1).2.poster_path = m.poster_path
        ∧ (vm_upsert db m t1).2.backdrop_path = m.backdrop_path
        ∧ (vm_upsert db m t1).2.release_date = m.release_date
        ∧ (vm_upsert db m t1).2.runtime = m.runtime
        ∧ (vm_upsert db m t1).2.vote_average = m.vote_average
        ∧ (vm_upsert db m t1).2.vote_count = m.vote_count
        ∧ (vm_upsert db m t1).2.genres = m.genres
        ∧ (vm_upsert db m t1).2.updated_at = t1)
    ∧ (vm_upsert (vm_upsert db m t1).1 m t2).2
        = { (vm_upsert db m t1).2 with updated_at := t2 }
    ∧ (vm_upsert db m t1).2.updated_at
        ≤ (vm_upsert (vm_upsert db m t1).1 m t2).2.updated_at := by
  obtain ⟨hmid, htm, htv, him, hov, hpo, hba, hre, hru, hva, hvc, hge, hup⟩ :=
    vm_upsert_fields db m t1
  have hfind := vm_upsert_find_self db m t1
  have hsecond : (vm_upsert (vm_upsert db m t1).1 m t2).2
      = overwrite_row (vm_upsert db m t1).2 m t2 := by
    unfold find_by_media_item_id at hfind
    exact vm_upsert_of_find (vm_upsert db m t1).1 m t2 (vm_upsert db m t1).2
      hfind
  have hcontent : overwrite_row (vm_upsert db m t1).2 m t2
      = { (vm_upsert db m t1).2 with updated_at := t2 } := by
    unfold overwrite_row
    simp only [htm, htv, him, hov, hpo, hba, hre, hru, hva, hvc, hge]
  refine ⟨vm_upsert_unique db m t1 huniq, ?_, hfind,
    ⟨htm, htv, him, hov, hpo, hba, hre, hru, hva, hvc, hge, hup⟩,
    hsecond.trans hcontent, ?_⟩
  · intro r hr hrm
    exact vm_upsert_of_find db m t1 r
      (find?_of_mem_unique db.rows m.media_item_id r huniq hr hrm)
  · rw [hsecond]
    unfold overwrite_row
    rw [hup]
    exact ht

/-- Witness for C3: upserting the same metadata twice over an initially
empty table at times 5 then 9. -/
theorem video_metadata_upsert_spec_witness :
    UniqueMid ⟨0, []⟩
    ∧ (5 : Nat) ≤ 9
    ∧ (vm_upsert (vm_upsert ⟨0, []⟩
        ⟨7, some 1, none, none, none, none, none, none, none, none, none,
          ["d"]⟩ 5).1
        ⟨7, some 1, none, none, none, none, none, none, none, none, none,
          ["d"]⟩ 9).2
      = { (vm_upsert ⟨0, []⟩
            ⟨7, some 1, none, none, none, none, none, none, none, none,
              none, ["d"]⟩ 5).2 with updated_at := 9 } :=
  ⟨by unfold UniqueMid; simp, by decide,
    (video_metadata_upsert_spec ⟨0, []⟩
      ⟨7, some 1, none, none, none, none, none, none, none, none, none,
        ["d"]⟩ 5 9 (by unfold UniqueMid; simp) (by decide)).2.2.2.2.1⟩

/-!
## Title and year parsing (src/src/services/metadata_agent.rs)

`parse_title_and_year` applies the fixed regex
`^(.+?)\s*\((\d{4})\)\s*$` with Rust `regex` crate semantics: `.` matches
any character except newline, the lazy `(.+?)` captures the shortest
non-empty prefix that lets the rest of the pattern match, and `$` anchors
at the end of the haystack.  `\s` and `\d` are modelled on their ASCII
ranges, on which the regex match and the subsequent
`str::parse::<i32>().ok()` of the captured year agree.
-/

def wsChar (c : Char) : Bool :=
  c = ' ' || c = '\t' || c = '\n' || c = '\x0b' || c = '\x0c' || c = '\r'

def digitChar (c : Char) : Bool := '0' ≤ c && c ≤ '9'

def digitsToNat (ds : List Char) : Nat :=
  ds.foldl (fun acc c => 10 * acc + (c.toNat - '0'.toNat)) 0

/-- Matches `\s*\((\d{4})\)\s*$` against the remainder of the haystack and
returns the four captured digit characters.  The greedy `\s*` must stop at
`(`, which is not whitespace, so it deterministically consumes every
leading whitespace character. -/
def yearTail (l : List Char) : Option (List Char) :=
  match l.dropWhile wsChar with
  | '(' :: d1 :: d2 :: d3 :: d4 :: ')' :: rest =>
      if digitChar d1 && digitChar d2 && digitChar d3 && digitChar d4
          && rest.all wsChar
      then some [d1, d2, d3, d4] else none
  | _ => none

/-- The lazy `(.+?)` scan: title prefixes are tried from the shortest up,
and the title can never cross a newline because `.` does not match `\n`. -/
def findSplit (acc : List Char) : List Char → Option (List Char × Nat)
  | [] => none
  | c :: rest =>
      if c = '\n' then none
      else
        match yearTail rest with
        | some ds => some (acc ++ [c], digitsToNat ds)
        | none => findSplit (acc ++ [c]) rest

/-- Embeds `MetadataAgent::parse_title_and_year`. -/
def parse_title_and_year (title : String) : String × Option Nat :=
  match findSplit [] title.data with
  | some (t, y) => (String.mk t, some y)
  | none => (title, none)

/-- A capture of the regex `^(.+?)\s*\((\d{4})\)\s*$` on haystack `s`:
`T` is a non-empty newline-free prefix and the remainder matches the year
tail with captured digits evaluating to `y`. -/
def RegexWitness (s T : List Char) (y : Nat) : Prop :=
  T ≠ [] ∧ (∀ c ∈ T, c ≠ '\n') ∧
    ∃ rest ds, s = T ++ rest ∧ yearTail rest = some ds ∧ y = digitsToNat ds

lemma findSplit_sound :
    ∀ (l acc t : List Char) (y : Nat),
      findSplit acc l = some (t, y) →
      ∃ mid rest ds, l = mid ++ rest ∧ t = acc ++ mid ∧ mid ≠ []
        ∧ (∀ c ∈ mid, c ≠ '\n') ∧ yearTail rest = some ds
        ∧ y = digitsToNat ds := by
  intro l
  induction l with
  | nil => intro acc t y h; cases h
  | cons c rest ih =>
      intro acc t y h
      unfold findSplit at h
      by_cases hc : c = '\n'
      · rw [if_pos hc] at h; cases h
      · rw [if_neg hc] at h
        cases hyt : yearTail rest with
        | some ds =>
            rw [hyt] at h
            injection h with h
            injection h with h1 h2
            exact ⟨[c], rest, ds, rfl, h1.symm, by simp, by
              intro x hx
              rw [List.mem_singleton] at hx
              rw [hx]
              exact hc, hyt, h2.symm⟩
        | none =>
            rw [hyt] at h
            obtain ⟨mid, rest2, ds, hl, ht, hne, hnl, hy, hd⟩ :=
              ih (acc ++ [c]) t y h
            refine ⟨c :: mid, rest2, ds, by rw [hl]; rfl, ?_, by simp, ?_,
              hy, hd⟩
            · rw [ht, List.append_assoc]
              rfl
            · intro x hx
              rcases List.mem_cons.mp hx with rfl | hx2
              · exact hc
              · exact hnl x hx2

lemma findSplit_minimal :
    ∀ (l acc t : List Char) (y : Nat),
      findSplit acc l = some (t, y) →
      ∀ (mid2 rest2 ds2 : List Char), l = mid2 ++ rest2 → mid2 ≠ [] →
        yearTail rest2 = some ds2 →
        t.length ≤ acc.length + mid2.length := by
  intro l
  induction l with
  | nil => intro acc t y h; cases h
  | cons c rest ih =>
      intro acc t y h mid2 rest2 ds2 hl hne hyt2
      unfold findSplit at h
      by_cases hc : c = '\n'
      · rw [if_pos hc] at h; cases h
      · rw [if_neg hc] at h
        cases mid2 with
        | nil => exact absurd rfl hne
        | cons c2 mid2t =>
            have hc2 : c2 = c ∧ rest = mid2t ++ rest2 := by
              rw [List.cons_append] at hl
              exact ⟨(List.cons.injEq _ _ _ _ ▸ hl).1.symm,
                (List.cons.injEq _ _ _ _ ▸ hl).2⟩
            cases hyt : yearTail rest with
            | some ds =>
                rw [hyt] at h
                injection h with h
                injection h with h1 _
                rw [← h1]
                simp
            | none =>
                rw [hyt] at h
                cases mid2t with
                | nil =>
                    rw [hc2.2] at hyt
                    simp only [List.nil_append] at hyt
                    rw [hyt] at hyt2
                    cases hyt2
                | cons c3 mid3 =>
                    have := ih (acc ++ [c]) t y h (c3 :: mid3) rest2 ds2
                      hc2.2 (by simp) hyt2
                    simp only [List.length_append, List.length_cons,
                      List.length_nil] at this ⊢
                    omega

lemma findSplit_complete :
    ∀ (l acc : List Char),
      (∃ mid rest ds, l = mid ++ rest ∧ mid ≠ [] ∧ (∀ c ∈ mid, c ≠ '\n')
        ∧ yearTail rest = some ds) →
      (findSplit acc l).isSome := by
  intro l
  induction l with
  | nil =>
      intro acc ⟨mid, rest, ds, hl, hne, _, _⟩
      cases mid with
      | nil => exact absurd rfl hne
      | cons a b => cases hl
  | cons c rest0 ih =>
      intro acc ⟨mid, rest, ds, hl, hne, hnl, hyt⟩
      cases mid with
      | nil => exact absurd rfl hne
      | cons c2 mid2 =>
          have hceq : c2 = c ∧ rest0 = mid2 ++ rest := by
            rw [List.cons_append] at hl
            exact ⟨(List.cons.injEq _ _ _ _ ▸ hl).1.symm,
              (List.cons.injEq _ _ _ _ ▸ hl).2⟩
          unfold findSplit
          have hcnl : ¬ c = '\n' := by
            rw [← hceq.1]
            exact hnl c2 (List.mem_cons_self c2 mid2)
          rw [if_neg hcnl]
          cases hyt0 : yearTail rest0 with
          | some ds0 => simp
          | none =>
              cases mid2 with
              | nil =>
                  rw [hceq.2] at hyt0
                  simp only [List.nil_append] at hyt0
                  rw [hyt0] at hyt
                  cases hyt
              | cons c3 mid3 =>
                  exact ih (acc ++ [c]) ⟨c3 :: mid3, rest, ds, hceq.2,
                    by simp, by
                      intro x hx
                      exact hnl x (List.mem_cons_of_mem c2 hx), hyt⟩

/-- C4: `parse_title_and_year` realises exactly the regex
`^(.+?)\s*\((\d{4})\)\s*$`: the three boundary examples hold, a match
returns the lazily-shortest captured title with its four-digit year, and a
title with no regex match passes through unchanged with the year unset. -/
theorem parse_title_and_year_spec :
    (parse_title_and_year "Foo (1999)" = ("Foo", some 1999))
    ∧ (parse_title_and_year "Foo (199)" = ("Foo (199)", none))
    ∧ (parse_title_and_year "Foo" = ("Foo", none))
    ∧ (∀ (s t : String) (y : Nat), parse_title_and_year s = (t, some y) →
        RegexWitness s.data t.data y
        ∧ ∀ (T2 : List Char) (y2 : Nat), RegexWitness s.data T2 y2 →
            t.data.length ≤ T2.length)
    ∧ (∀ s : String, parse_title_and_year s = (s, none) ↔
        ¬ ∃ T y, RegexWitness s.data T y) := by
  refine ⟨by decide, by decide, by decide, ?_, ?_⟩
  · intro s t y h
    unfold parse_title_and_year at h
    cases hfs : findSplit [] s.data with
    | none => rw [hfs] at h; cases h
    | some p =>
        obtain ⟨t0, y0⟩ := p
        rw [hfs] at h
        injection h with h1 h2
        injection h2 with h2
        subst h2
        have htd : t.data = t0 := by rw [← h1]
        obtain ⟨mid, rest, ds, hl, ht, hne, hnl, hyt, hy⟩ :=
          findSplit_sound s.data [] t0 y0 hfs
        simp only [List.nil_append] at ht
        subst ht
        constructor
        · exact ⟨by rw [htd]; exact hne, by rw [htd]; exact hnl,
            rest, ds, by rw [htd]; exact hl, hyt, hy⟩
        · intro T2 y2 hw
          obtain ⟨hne2, hnl2, rest2, ds2, hl2, hyt2, _⟩ := hw
          have := findSplit_minimal s.data [] t0 y0 hfs T2 rest2 ds2 hl2
            hne2 hyt2
          rw [htd]
          simpa using this
  · intro s
    constructor
    · intro h ⟨T, y, hne2, hnl2, rest2, ds2, hl2, hyt2, _⟩
      unfold parse_title_and_year at h
      cases hfs : findSplit [] s.data with
      | some p =>
          obtain ⟨t0, y0⟩ := p
          rw [hfs] at h
          injection h with _ h2
          cases h2
      | none =>
          have := findSplit_complete s.data []
            ⟨T, rest2, ds2, hl2, hne2, hnl2, hyt2⟩
          rw [hfs] at this
          cases this
    · intro hno
      unfold parse_title_and_year
      cases hfs : findSplit [] s.data with
      | some p =>
          obtain ⟨t0, y0⟩ := p
          obtain ⟨mid, rest, ds, hl, ht, hne, hnl, hyt, hy⟩ :=
            findSplit_sound s.data [] t0 y0 hfs
          exact absurd ⟨mid, digitsToNat ds, hne, hnl, rest, ds, hl, hyt,
            rfl⟩ hno
      | none => rfl

/-- Witness for C4: the regex capture produced for `"Foo (1999)"`. -/
theorem parse_title_and_year_spec_witness :
    parse_title_and_year "Foo (1999)" = ("Foo", some 1999)
    ∧ RegexWitness ("Foo (1999)".data) ("Foo".data) 1999 :=
  ⟨parse_title_and_year_spec.1,
    (parse_title_and_year_spec.2.2.2.1 "Foo (1999)" "Foo" 1999
      (by decide)).1⟩

/-!
## Organizer (src/src/scraper/mod.rs)

`AyiahScraper::process_single_file` is embedded with an explicit trace of
its observable actions.  A per-attempt environment supplies the results of
the metadata fetch, the target-existence probe, `fs::create_dir_all` and
the underlying filesystem placement operation.  An overall result of
`none` models the `last_error.unwrap()` panic.  Paths are lists of
components.  Only the Unix symlink branch of `organize_file` is modelled
(the Windows branch differs only in which std call it makes).
-/

abbrev PathM := List String

inductive OrganizeMethod where
  | softLink
  | hardLink
  | copy
  | move
deriving DecidableEq

/-- The organizer's own media-kind enum (`MediaType` in
src/src/scraper/mod.rs, distinct from the entities enum). -/
inductive ScrapeMediaType where
  | video
  | book
  | music
  | comic
deriving DecidableEq

inductive ScrapeErrorM where
  | metadataFetchError (msg : String)
  | invalidPath (msg : String)
  | directoryCreationError (msg : String)
  | symlinkError (msg : String)
  | hardLinkError (msg : String)
  | copyError (msg : String)
  | moveError (msg : String)
deriving DecidableEq

/-- The `VideoMetadata` fields `generate_target_path` consults (the many
remaining payload fields of the provider structs are never read by the
organizer). -/
structure VideoMeta where
  title : Option String
  release_date : Option String
  season_number : Option Nat
deriving DecidableEq

structure BookMeta where
  authors : Option (List String)
  series : Option String
deriving DecidableEq

structure MusicMeta where
  artists : Option (List String)
  album : Option String
deriving DecidableEq

structure ComicMeta where
  publisher : Option String
  series : Option String
  volume : Option Nat
deriving DecidableEq

inductive MediaMetadata where
  | video (v : VideoMeta)
  | book (b : BookMeta)
  | music (m : MusicMeta)
  | comic (c : ComicMeta)
deriving DecidableEq

/-- The fields of `FileInfo` (the `modified` timestamp is never consulted
by the organizer path). -/
structure FileInfo where
  path : PathM
  media_type : ScrapeMediaType
  size : Nat
deriving DecidableEq

/-- The `AyiahScraper` configuration fields (the metadata provider lives
in the environment). -/
structure AyiahScraper where
  organize_method : OrganizeMethod
  source_path : PathM
  target_path : PathM
  max_concurrent_tasks : Nat
  chunk_size : Nat
  retry_count : Nat
  skip_existing : Bool
  dry_run : Bool
deriving DecidableEq

/-- Embeds `AyiahScraper::generate_target_path`. -/
def generate_target_path (cfg : AyiahScraper) (file : FileInfo)
    (metadata : MediaMetadata) : Except ScrapeErrorM PathM :=
  let dirs : PathM :=
    match metadata with
    | MediaMetadata.video v =>
        let title := v.title.getD "Unknown"
        let year :=
          match v.release_date with
          | some d => String.mk ((splitOnChar '-' d.data).headD [])
          | none => "Unknown"
        ["Videos", title ++ " (" ++ year ++ ")"]
          ++ (match v.season_number with
              | some season => ["Season " ++ toString season]
              | none => [])
    | MediaMetadata.book b =>
        let author := (b.authors.bind List.head?).getD "Unknown Author"
        ["Books", author]
          ++ (match b.series with
              | some series => [series]
              | none => [])
    | MediaMetadata.music m =>
        let artist := (m.artists.bind List.head?).getD "Unknown Artist"
        ["Music", artist]
          ++ (match m.album with
              | some album => [album]
              | none => [])
    | MediaMetadata.comic c =>
        ["Comics"]
          ++ (match c.publisher with
              | some publisher => [publisher]
              | none => [])
          ++ (match c.series with
              | some series =>
                  [series]
                    ++ (match c.volume with
                        | some volume => ["Volume " ++ toString volume]
                        | none => [])
              | none => [])
  match file.path.getLast? with
  | none => Except.error (ScrapeErrorM.invalidPath "Invalid file path")
  | some name => Except.ok (cfg.target_path ++ dirs ++ [name])

/-- Observable actions of one `process_single_file` call. -/
inductive OrgAction where
  | dryRunLog (path : PathM)
  | fetchedMetadata
  | derivedTarget (target : PathM)
  | skippedExisting (target : PathM)
  | createdDir (parent : PathM)
  | placed (method : OrganizeMethod) (source target : PathM)
  | slept (ms : Nat)
deriving DecidableEq

/-- The environment of one attempt: outcomes of the metadata fetch, the
`target_path.exists()` probe, `fs::create_dir_all` and the underlying
filesystem operation of the chosen method. -/
structure AttemptEnv where
  fetch_metadata : Except String MediaMetadata
  target_exists : PathM → Bool
  create_dir : Except String Unit
  fs_op : Except String Unit

/-- Embeds `AyiahScraper::organize_file`: each method maps the underlying
failure to its own error class. -/
def organize_file (cfg : AyiahScraper) (e : AttemptEnv) :
    Except ScrapeErrorM Unit :=
  match cfg.organize_method with
  | OrganizeMethod.softLink =>
      match e.fs_op with
      | Except.ok _ => Except.ok ()
      | Except.error msg => Except.error (ScrapeErrorM.symlinkError msg)
  | OrganizeMethod.hardLink =>
      match e.fs_op with
      | Except.ok _ => Except.ok ()
      | Except.error msg => Except.error (ScrapeErrorM.hardLinkError msg)
  | OrganizeMethod.copy =>
      match e.fs_op with
      | Except.ok _ => Except.ok ()
      | Except.error msg => Except.error (ScrapeErrorM.copyError msg)
  | OrganizeMethod.move =>
      match e.fs_op with
      | Except.ok _ => Except.ok ()
      | Except.error msg => Except.error (ScrapeErrorM.moveError msg)

/-- Embeds `AyiahScraper::process_file_with_retry` (the body of one
attempt): fetch metadata, derive the target path, skip existing targets,
create the parent directory, place the file. -/
def process_file_with_retry (cfg : AyiahScraper) (e : AttemptEnv)
    (file : FileInfo) : Except ScrapeErrorM Unit × List OrgAction :=
  match e.fetch_metadata with
  | Except.error msg =>
      (Except.error (ScrapeErrorM.metadataFetchError msg), [])
  | Except.ok metadata =>
    match generate_target_path cfg file metadata with
    | Except.error err => (Except.error err, [OrgAction.fetchedMetadata])
    | Except.ok target =>
      if cfg.skip_existing && e.target_exists target then
        (Except.ok (),
          [OrgAction.fetchedMetadata, OrgAction.derivedTarget target,
            OrgAction.skippedExisting target])
      else
        match (if target.isEmpty then none else some target.dropLast) with
        | some parent =>
            (match e.create_dir with
              | Except.error msg =>
                  (Except.error (ScrapeErrorM.directoryCreationError msg),
                    [OrgAction.fetchedMetadata,
                      OrgAction.derivedTarget target])
              | Except.ok _ =>
                  match organize_file cfg e with
                  | Except.error err =>
                      (Except.error err,
                        [OrgAction.fetchedMetadata,
                          OrgAction.derivedTarget target,
                          OrgAction.createdDir parent])
                  | Except.ok _ =>
                      (Except.ok (),
                        [OrgAction.fetchedMetadata,
                          OrgAction.derivedTarget target,
                          OrgAction.createdDir parent,
                          OrgAction.placed cfg.organize_method file.path
                            target]))
        | none =>
            match organize_file cfg e with
            | Except.error err =>
                (Except.error err,
                  [OrgAction.fetchedMetadata, OrgAction.derivedTarget target])
            | Except.ok _ =>
                (Except.ok (),
                  [OrgAction.fetchedMetadata, OrgAction.derivedTarget target,
                    OrgAction.placed cfg.organize_method file.path target])

/-- The retry loop `for attempt in 1..=retry_count { ... }` followed by
`last_error.unwrap()`: `remaining` counts iterations left, and a `none`
result is the unwrap panic on a `None` last error. -/
def retry_loop (cfg : AyiahScraper) (envs : Nat → AttemptEnv)
    (file : FileInfo) :
    Nat → Nat → Option ScrapeErrorM →
      Option (Except ScrapeErrorM Unit) × List OrgAction
  | 0, _, lastErr =>
      (match lastErr with
        | some err => (some (Except.error err), [])
        | none => (none, []))
  | remaining + 1, attempt, _ =>
      match process_file_with_retry cfg (envs attempt) file with
      | (Except.ok _, acts) => (some (Except.ok ()), acts)
      | (Except.error err, acts) =>
          if attempt < cfg.retry_count then
            let tail := retry_loop cfg envs file remaining (attempt + 1)
              (some err)
            (tail.1, acts ++ OrgAction.slept (1000 * attempt) :: tail.2)
          else
            let tail := retry_loop cfg envs file remaining (attempt + 1)
              (some err)
            (tail.1, acts ++ tail.2)

/-- Embeds `AyiahScraper::process_single_file`: the dry-run check comes
first, before any metadata fetch or target-path derivation, and logs the
source path. -/
def process_single_file (cfg : AyiahScraper) (envs : Nat → AttemptEnv)
    (file : FileInfo) :
    Option (Except ScrapeErrorM Unit) × List OrgAction :=
  if cfg.dry_run then
    (some (Except.ok ()), [OrgAction.dryRunLog file.path])
  else
    retry_loop cfg envs file cfg.retry_count 1 none

def isSlept : OrgAction → Bool
  | OrgAction.slept _ => true
  | _ => false

/-- C6 (amended): when `dry_run` is set, `process_single_file`
short-circuits immediately at entry — before the metadata fetch and before
target-path derivation — logging the source path, and returns success with
no filesystem action. -/
theorem dry_run_short_circuits_at_entry (cfg : AyiahScraper)
    (envs : Nat → AttemptEnv) (file : FileInfo) (h : cfg.dry_run = true) :
    process_single_file cfg envs file
      = (some (Except.ok ()), [OrgAction.dryRunLog file.path]) := by
  unfold process_single_file
  rw [h]
  rfl

/-- Counterexample to C6 as stated: with `dry_run` set the trace is exactly
one log of the source path — no target path is ever derived, so the logged
operation cannot include it. -/
theorem dry_run_counterexample :
    (process_single_file
        ⟨OrganizeMethod.copy, ["src"], ["dst"], 4, 100, 3, true, true⟩
        (fun _ => ⟨Except.ok (MediaMetadata.video
            ⟨some "T", some "2000-01-01", none⟩),
          fun _ => false, Except.ok (), Except.ok ()⟩)
        ⟨["src", "a.mkv"], ScrapeMediaType.video, 5⟩).2
      = [OrgAction.dryRunLog ["src", "a.mkv"]]
    ∧ ∀ t : PathM, OrgAction.derivedTarget t ∉
        (process_single_file
          ⟨OrganizeMethod.copy, ["src"], ["dst"], 4, 100, 3, true, true⟩
          (fun _ => ⟨Except.ok (MediaMetadata.video
              ⟨some "T", some "2000-01-01", none⟩),
            fun _ => false, Except.ok (), Except.ok ()⟩)
          ⟨["src", "a.mkv"], ScrapeMediaType.video, 5⟩).2 := by
  constructor
  · rfl
  · intro t h
    have h2 : OrgAction.derivedTarget t
        ∈ [OrgAction.dryRunLog (["src", "a.mkv"] : PathM)] := h
    rw [List.mem_singleton] at h2
    cases h2

/-- Witness for the amended C6 at a concrete dry-run configuration. -/
theorem dry_run_short_circuits_witness :
    process_single_file
        ⟨OrganizeMethod.move, ["s"], ["t"], 4, 100, 3, false, true⟩
        (fun _ => ⟨Except.error "net down", fun _ => true, Except.ok (),
          Except.ok ()⟩)
        ⟨["s", "b.mkv"], ScrapeMediaType.video, 2⟩
      = (some (Except.ok ()), [OrgAction.dryRunLog ["s", "b.mkv"]]) :=
  dry_run_short_circuits_at_entry
    ⟨OrganizeMethod.move, ["s"], ["t"], 4, 100, 3, false, true⟩
    (fun _ => ⟨Except.error "net down", fun _ => true, Except.ok (),
      Except.ok ()⟩)
    ⟨["s", "b.mkv"], ScrapeMediaType.video, 2⟩ rfl

lemma pfwr_no_sleep (cfg : AyiahScraper) (e : AttemptEnv)
    (file : FileInfo) :
    (process_file_with_retry cfg e file).2.filter isSlept = [] := by
  unfold process_file_with_retry
  repeat' split
  all_goals rfl

lemma retry_loop_all_fail (cfg : AyiahScraper) (envs : Nat → AttemptEnv)
    (file : FileInfo) (errs : Nat → ScrapeErrorM) :
    ∀ (remaining attempt : Nat) (lastErr : Option ScrapeErrorM),
      attempt + remaining = cfg.retry_count + 1 → 1 ≤ attempt →
      1 ≤ remaining →
      (∀ n, attempt ≤ n → n ≤ cfg.retry_count →
        (process_file_with_retry cfg (envs n) file).1
          = Except.error (errs n)) →
      (retry_loop cfg envs file remaining attempt lastErr).1
          = some (Except.error (errs cfg.retry_count))
      ∧ (retry_loop cfg envs file remaining attempt lastErr).2.filter isSlept
          = (List.range' attempt (cfg.retry_count - attempt)).map
              (fun n => OrgAction.slept (1000 * n)) := by
  intro remaining
  induction remaining with
  | zero =>
      intro attempt lastErr _ _ hrem
      exact absurd hrem (by omega)
  | succ n ih =>
      intro attempt lastErr hsum hatt _ hfail
      have hle : attempt ≤ cfg.retry_count := by omega
      have herr := hfail attempt (le_refl attempt) hle
      unfold retry_loop
      cases hp : process_file_with_retry cfg (envs attempt) file with
      | mk res acts =>
          have hres : res = Except.error (errs attempt) := by
            rw [← herr, hp]
          subst hres
          have hacts : acts.filter isSlept = [] := by
            have := pfwr_no_sleep cfg (envs attempt) file
            rw [hp] at this
            exact this
          dsimp only
          by_cases hlt : attempt < cfg.retry_count
          · have hn : 1 ≤ n := by omega
            obtain ⟨ih1, ih2⟩ := ih (attempt + 1) (some (errs attempt))
              (by omega) (by omega) hn
              (fun k hk1 hk2 => hfail k (by omega) hk2)
            rw [if_pos hlt]
            refine ⟨ih1, ?_⟩
            rw [List.filter_append, hacts, List.nil_append]
            rw [List.filter_cons]
            have hslept : isSlept (OrgAction.slept (1000 * attempt))
                = true := rfl
            rw [hslept, if_pos rfl]
            rw [ih2]
            have hrange : List.range' attempt (cfg.retry_count - attempt)
                = attempt :: List.range' (attempt + 1)
                    (cfg.retry_count - (attempt + 1)) := by
              have h1 : cfg.retry_count - attempt
                  = (cfg.retry_count - (attempt + 1)) + 1 := by omega
              rw [h1, List.range'_succ]
            rw [hrange, List.map_cons]
          · have heq : attempt = cfg.retry_count := by omega
            have hn0 : n = 0 := by omega
            subst hn0
            rw [if_neg hlt]
            constructor
            · show (retry_loop cfg envs file 0 (attempt + 1)
                  (some (errs attempt))).1 = _
              rw [heq]
              rfl
            · show (acts ++ (retry_loop cfg envs file 0 (attempt + 1)
                  (some (errs attempt))).2).filter isSlept = _
              have htail : (retry_loop cfg envs file 0 (attempt + 1)
                  (some (errs attempt))).2 = [] := rfl
              rw [htail, List.append_nil, hacts]
              have : cfg.retry_count - attempt = 0 := by omega
              rw [this]
              rfl

/-- C7: in non-dry-run mode the per-file processing (placement included)
is retried up to `retry_count` times with linear backoff — a sleep of
`n × 1000` ms after failed attempt `n` for every `n < retry_count` and no
sleep after the final attempt — and when every attempt fails, the error of
the last attempt is returned with its failure class preserved. -/
theorem retry_linear_backoff (cfg : AyiahScraper)
    (envs : Nat → AttemptEnv) (file : FileInfo)
    (errs : Nat → ScrapeErrorM)
    (hdry : cfg.dry_run = false) (hR : 1 ≤ cfg.retry_count)
    (hfail : ∀ n, 1 ≤ n → n ≤ cfg.retry_count →
      (process_file_with_retry cfg (envs n) file).1
        = Except.error (errs n)) :
    (process_single_file cfg envs file).1
        = some (Except.error (errs cfg.retry_count))
    ∧ (process_single_file cfg envs file).2.filter isSlept
        = (List.range' 1 (cfg.retry_count - 1)).map
            (fun n => OrgAction.slept (1000 * n)) := by
  unfold process_single_file
  rw [hdry]
  simp only [Bool.false_eq_true, if_false]
  exact retry_loop_all_fail cfg envs file errs cfg.retry_count 1 none
    (by omega) (le_refl 1) hR hfail

/-- Witness for C7: two attempts, both failing the metadata fetch, with a
single one-second sleep between them and the final error returned. -/
theorem retry_linear_backoff_witness :
    (process_single_file
        ⟨OrganizeMethod.copy, ["s"], ["t"], 4, 100, 2, true, false⟩
        (fun _ => ⟨Except.error "e", fun _ => false, Except.ok (),
          Except.ok ()⟩)
        ⟨["s", "c.mkv"], ScrapeMediaType.video, 3⟩).1
      = some (Except.error (ScrapeErrorM.metadataFetchError "e"))
    ∧ (process_single_file
        ⟨OrganizeMethod.copy, ["s"], ["t"], 4, 100, 2, true, false⟩
        (fun _ => ⟨Except.error "e", fun _ => false, Except.ok (),
          Except.ok ()⟩)
        ⟨["s", "c.mkv"], ScrapeMediaType.video, 3⟩).2.filter isSlept
      = [OrgAction.slept 1000] := by
  have h := retry_linear_backoff
    ⟨OrganizeMethod.copy, ["s"], ["t"], 4, 100, 2, true, false⟩
    (fun _ => ⟨Except.error "e", fun _ => false, Except.ok (),
      Except.ok ()⟩)
    ⟨["s", "c.mkv"], ScrapeMediaType.video, 3⟩
    (fun _ => ScrapeErrorM.metadataFetchError "e")
    rfl (by decide) (fun n _ _ => rfl)
  refine ⟨h.1, ?_⟩
  rw [h.2]
  rfl

lemma retry_loop_isSome (cfg : AyiahScraper) (envs : Nat → AttemptEnv)
    (file : FileInfo) :
    ∀ (remaining attempt : Nat) (lastErr : Option ScrapeErrorM),
      (1 ≤ remaining ∨ lastErr ≠ none) →
      (retry_loop cfg envs file remaining attempt lastErr).1 ≠ none := by
  intro remaining
  induction remaining with
  | zero =>
      intro attempt lastErr h
      rcases h with h | h
      · exact absurd h (by omega)
      · cases lastErr with
        | none => exact absurd rfl h
        | some err => simp [retry_loop]
  | succ n ih =>
      intro attempt lastErr _
      unfold retry_loop
      cases hp : process_file_with_retry cfg (envs attempt) file with
      | mk res acts =>
          cases res with
          | ok u => simp
          | error err =>
              dsimp only
              by_cases hlt : attempt < cfg.retry_count
              · rw [if_pos hlt]
                exact ih (attempt + 1) (some err) (Or.inr (by simp))
              · rw [if_neg hlt]
                exact ih (attempt + 1) (some err) (Or.inr (by simp))

/-- C10: with `retry_count = 0` and `dry_run = false`,
`process_single_file` panics — the retry loop body never runs and
`last_error.unwrap()` unwraps `None` — while `retry_count ≥ 1` makes the
function total (it always returns a `Result`). -/
theorem retry_zero_panics (cfg : AyiahScraper) (envs : Nat → AttemptEnv)
    (file : FileInfo) :
    (process_single_file { cfg with retry_count := 0, dry_run := false }
        envs file).1 = none
    ∧ (1 ≤ cfg.retry_count → cfg.dry_run = false →
        (process_single_file cfg envs file).1 ≠ none) := by
  constructor
  · rfl
  · intro hR hdry
    unfold process_single_file
    rw [hdry]
    simp only [Bool.false_eq_true, if_false]
    exact retry_loop_isSome cfg envs file cfg.retry_count 1 none (Or.inl hR)

/-- Witness for C10: the panic at `retry_count = 0` and totality at
`retry_count = 3`, on one concrete file and environment. -/
theorem retry_zero_panics_witness :
    (process_single_file
        ⟨OrganizeMethod.move, ["s"], ["t"], 4, 100, 0, true, false⟩
        (fun _ => ⟨Except.error "x", fun _ => false, Except.ok (),
          Except.ok ()⟩)
        ⟨["s", "f.mkv"], ScrapeMediaType.video, 1⟩).1 = none
    ∧ (process_single_file
        ⟨OrganizeMethod.move, ["s"], ["t"], 4, 100, 3, true, false⟩
        (fun _ => ⟨Except.error "x", fun _ => false, Except.ok (),
          Except.ok ()⟩)
        ⟨["s", "f.mkv"], ScrapeMediaType.video, 1⟩).1 ≠ none :=
  ⟨(retry_zero_panics
      ⟨OrganizeMethod.move, ["s"], ["t"], 4, 100, 3, true, false⟩
      (fun _ => ⟨Except.error "x", fun _ => false, Except.ok (),
        Except.ok ()⟩)
      ⟨["s", "f.mkv"], ScrapeMediaType.video, 1⟩).1,
    (retry_zero_panics
      ⟨OrganizeMethod.move, ["s"], ["t"], 4, 100, 3, true, false⟩
      (fun _ => ⟨Except.error "x", fun _ => false, Except.ok (),
        Except.ok ()⟩)
      ⟨["s", "f.mkv"], ScrapeMediaType.video, 1⟩).2 (by decide) rfl⟩

/-!
## TVDB provider (src/src/scraper/provider/tvdb.rs)

The adapter caches its bearer token in `self.token`.  `get_token` returns
the cached token when present and otherwise performs one `login` call;
`request` obtains a token (cached or fresh) and sends the HTTP request,
mapping every non-2xx status — 401 included — directly to
`Api { status, message }` with no re-authentication and no token refresh.
The environment supplies the login outcome and, per bearer token, the
response; the `Nat` in each result counts login calls performed.
-/

structure TvdbState where
  token : Option String
deriving DecidableEq

inductive ScraperErrorM where
  | api (status : Nat) (message : String)
  | parse (msg : String)
  | network (msg : String)
deriving DecidableEq

structure TvdbEnv where
  login_network_ok : Bool
  login_status : Nat
  login_parse_ok : Bool
  login_token : String
  response_status : String → Nat
  response_text : String → String
  response_parse_ok : String → Bool

/-- `reqwest::StatusCode::is_success`: the 2xx range. -/
def is_success_status (s : Nat) : Bool := 200 ≤ s && s < 300

/-- Embeds `TvdbProvider::get_token`: return the cached token if present,
otherwise log in once and cache the fresh token. -/
def get_token (env : TvdbEnv) (st : TvdbState) :
    Except ScraperErrorM String × TvdbState × Nat :=
  match st.token with
  | some t => (Except.ok t, st, 0)
  | none =>
      if !env.login_network_ok then
        (Except.error (ScraperErrorM.network "login request failed"), st, 1)
      else if !(is_success_status env.login_status) then
        (Except.error (ScraperErrorM.api env.login_status
          "Failed to authenticate with TVDB"), st, 1)
      else if !env.login_parse_ok then
        (Except.error (ScraperErrorM.parse
          "Failed to parse TVDB login response"), st, 1)
      else
        (Except.ok env.login_token, ⟨some env.login_token⟩, 1)

/-- Embeds `TvdbProvider::request`: fetch a token, send the request, and
return `Api { status, text }` on any non-2xx status (no retry, no token
refresh), or the parsed body on success. -/
def tvdb_request (env : TvdbEnv) (st : TvdbState) :
    Except ScraperErrorM String × TvdbState × Nat :=
  match get_token env st with
  | (Except.error e, st2, logins) => (Except.error e, st2, logins)
  | (Except.ok token, st2, logins) =>
      if !(is_success_status (env.response_status token)) then
        (Except.error (ScraperErrorM.api (env.response_status token)
          (env.response_text token)), st2, logins)
      else if !(env.response_parse_ok token) then
        (Except.error (ScraperErrorM.parse
          "Failed to parse TVDB response"), st2, logins)
      else
        (Except.ok (env.response_text token), st2, logins)

/-- Counterexample to C5 as stated: with a cached token and a server that
answers 401, `request` propagates `Api { 401, .. }` after zero login calls
and with the cached token unchanged — no re-authentication happens. -/
theorem tvdb_401_counterexample :
    tvdb_request
        ⟨true, 200, true, "fresh", fun _ => 401, fun _ => "Unauthorized",
          fun _ => true⟩
        ⟨some "tok"⟩
      = (Except.error (ScraperErrorM.api 401 "Unauthorized"),
          ⟨some "tok"⟩, 0)
    ∧ ¬ (1 ≤ (tvdb_request
        ⟨true, 200, true, "fresh", fun _ => 401, fun _ => "Unauthorized",
          fun _ => true⟩
        ⟨some "tok"⟩).2.2) := by
  constructor
  · rfl
  · intro h
    exact absurd h (by decide)

/-- C5 (amended): the TVDB token is obtained via a single `login` call on
first use and cached in the adapter; a subsequent request that receives a
non-2xx response (401 included) propagates `Api { status, message }` to
the caller without re-authenticating — the cached token is never
refreshed on 401. -/
theorem tvdb_token_cached_no_refresh (env : TvdbEnv) (t : String)
    (hfail : is_success_status (env.response_status t) = false) :
    get_token env ⟨some t⟩ = (Except.ok t, ⟨some t⟩, 0)
    ∧ (env.login_network_ok = true →
        is_success_status env.login_status = true →
        env.login_parse_ok = true →
        get_token env ⟨none⟩
          = (Except.ok env.login_token, ⟨some env.login_token⟩, 1))
    ∧ tvdb_request env ⟨some t⟩
        = (Except.error (ScraperErrorM.api (env.response_status t)
            (env.response_text t)), ⟨some t⟩, 0) := by
  refine ⟨rfl, ?_, ?_⟩
  · intro hnet hstat hparse
    unfold get_token
    rw [hnet, hstat, hparse]
    rfl
  · unfold tvdb_request
    have hget : get_token env ⟨some t⟩ = (Except.ok t, ⟨some t⟩, 0) := rfl
    rw [hget]
    dsimp only
    rw [hfail]
    rfl

/-- Witness for the amended C5 at a concrete 401-answering environment. -/
theorem tvdb_token_cached_no_refresh_witness :
    is_success_status 401 = false
    ∧ tvdb_request
        ⟨true, 200, true, "fresh", fun _ => 401, fun _ => "nope",
          fun _ => true⟩
        ⟨some "cached"⟩
      = (Except.error (ScraperErrorM.api 401 "nope"), ⟨some "cached"⟩, 0) :=
  ⟨by decide,
    (tvdb_token_cached_no_refresh
      ⟨true, 200, true, "fresh", fun _ => 401, fun _ => "nope",
        fun _ => true⟩
      "cached" (by decide)).2.2⟩

end Ayiah
